import Mathlib

/-!
Verification of the two Go commands in this repository: the USDC token query
command (`main.go`) and the NFT query command (the second main package).
Machine integers are modelled as `Nat` with explicit reduction modulo `2 ^ 64`
where Go's `uint64` arithmetic can wrap; fallible calls are `Except String`;
the external RPC transport and the Keccak-256 hash are parameters.
-/

set_option maxHeartbeats 1000000

/-- Big-endian base-`b` digits of `n`, fixed width `w` (the low `w` digits). -/
def toDigits (b : Nat) : Nat → Nat → List Nat
  | 0, _ => []
  | w + 1, n => toDigits b w (n / b) ++ [n % b]

/-- Value of a big-endian digit list in base `b`. -/
def digitsVal (b : Nat) : List Nat → Nat
  | [] => 0
  | d :: ds => d * b ^ ds.length + digitsVal b ds

/-- Lowercase hex digit character for a value below 16, as produced by the
go-ethereum hex encoder. -/
def hexDigitChar (n : Nat) : Char :=
  if n < 10 then Char.ofNat (48 + n) else Char.ofNat (87 + n)

/-- Value of one hex character; `none` on a non-hex character. -/
def hexCharVal (c : Char) : Option Nat :=
  if 48 ≤ c.toNat ∧ c.toNat ≤ 57 then some (c.toNat - 48)
  else if 97 ≤ c.toNat ∧ c.toNat ≤ 102 then some (c.toNat - 87)
  else if 65 ≤ c.toNat ∧ c.toNat ≤ 70 then some (c.toNat - 55)
  else none

/-- Value of a big-endian hex character list; `none` on a non-hex character. -/
def hexCharsVal : List Char → Option Nat
  | [] => some 0
  | c :: cs =>
    match hexCharVal c, hexCharsVal cs with
    | some v, some rest => some (v * 16 ^ cs.length + rest)
    | _, _ => none

/-- Drop a leading "0x", as go-ethereum `FromHex` does. -/
def strip0x (cs : List Char) : List Char :=
  match cs with
  | c0 :: c1 :: rest => if c0 = '0' ∧ c1 = 'x' then rest else cs
  | _ => cs

/-- `common.HexToAddress`: decode the hex string and keep the low-order
20 bytes (`BytesToAddress` keeps the trailing 20 bytes); undecodable input
yields the zero address. -/
def hexToAddress (s : String) : Nat :=
  match hexCharsVal (strip0x s.data) with
  | some n => n % 2 ^ 160
  | none => 0

/-- `common.Hash.Hex`: the 0x-prefixed 64-digit hex rendering of a 32-byte
hash value. -/
def hashHex (t : Nat) : String :=
  String.mk ('0' :: 'x' :: (toDigits 16 64 t).map hexDigitChar)

/-- `common.HexToAddress(vLog.Topics[i].Hex())`, the topic-to-address decoding
used at main.go lines 93-94. -/
def topicToAddress (t : Nat) : Nat :=
  hexToAddress (hashHex t)

/-- `new(big.Int).SetBytes`: big-endian interpretation of a byte slice. -/
def setBytes (bs : List Nat) : Nat :=
  digitsVal 256 bs

/-- `[]byte(s)` for the ASCII constants used in this repository. -/
def strBytes (s : String) : List Nat :=
  s.data.map Char.toNat

/-- Go `int64(u)` conversion of a `uint64` value, as in `big.NewInt(int64(startBlock))`. -/
def toInt64 (n : Nat) : Int :=
  if n % 2 ^ 64 < 2 ^ 63 then ((n % 2 ^ 64 : Nat) : Int)
  else ((n % 2 ^ 64 : Nat) : Int) - 2 ^ 64

/-- Reduction to Go `uint64` range. -/
def u64 (n : Nat) : Nat := n % 2 ^ 64

/-- main.go line 19. -/
def USDC_CONTRACT_ADDRESS : String := "0xA0b86991c6218b36c1d19D4a2e9Eb0cE3606eB48"

/-- main.go line 22. -/
def TRANSFER_EVENT_SIGNATURE : String := "Transfer(address,address,uint256)"

/-- An Ethereum log entry as returned by the transport: block number, 32-byte
topic words, raw data bytes. -/
structure Log where
  blockNumber : Nat
  topics : List Nat
  data : List Nat
deriving DecidableEq

/-- `ethereum.FilterQuery` as built in `getUSDCTransfers`. -/
structure FilterQuery where
  fromBlock : Int
  toBlock : Int
  addresses : List Nat
  topics : List (List Nat)
deriving DecidableEq

/-- One decoded transfer, the data printed per log entry. -/
structure TransferRecord where
  blockNumber : Nat
  transferType : String
  fromAddr : Nat
  toAddr : Nat
  amount : Nat
deriving DecidableEq

/-- main.go lines 56-62: `startBlock := latestBlock - 99` in `uint64`
arithmetic (wrapping), then `if startBlock < 0 { startBlock = 0 }` — an
unsigned comparison that can never be true. -/
def computeStartBlock (latestBlock : Nat) : Nat :=
  let startBlock := u64 (latestBlock + (2 ^ 64 - 99))
  if startBlock < 0 then 0 else startBlock

/-- main.go lines 73-81: the filter query of `getUSDCTransfers`. The external
`crypto.Keccak256Hash` is the parameter `keccak`. -/
def buildQuery (keccak : List Nat → Nat) (startBlock endBlock : Nat) : FilterQuery :=
  { fromBlock := toInt64 startBlock
    toBlock := toInt64 endBlock
    addresses := [hexToAddress USDC_CONTRACT_ADDRESS]
    topics := [[keccak (strBytes TRANSFER_EVENT_SIGNATURE)]] }

/-- main.go lines 92-101, the body of the per-log loop: decode sender and
recipient from topics 1 and 2, amount from the data bytes divided by the
divisor, and classify. Out-of-range topic indexing (a Go panic) is `none`. -/
def processLog (divisor : Nat) (vLog : Log) : Option TransferRecord :=
  match vLog.topics.get? 1, vLog.topics.get? 2 with
  | some t1, some t2 =>
    some { blockNumber := vLog.blockNumber
           transferType :=
             if topicToAddress t1 = hexToAddress "0x0000000000000000000000000000000000000000"
             then "Mint" else "Transfer"
           fromAddr := topicToAddress t1
           toAddr := topicToAddress t2
           amount := setBytes vLog.data / divisor }
  | _, _ => none

/-- The `for _, vLog := range logs` loop of `getUSDCTransfers`, one record per
log entry in transport order; `none` if any iteration panics. -/
def processLogs (divisor : Nat) : List Log → Option (List TransferRecord)
  | [] => some []
  | l :: ls =>
    match processLog divisor l, processLogs divisor ls with
    | some r, some rs => some (r :: rs)
    | _, _ => none

/-- main.go lines 70-108: `getUSDCTransfers`. The transport's `FilterLogs` is
the parameter `filterLogs`; a transport error is wrapped as in line 85; the
divisor is `10 ^ decimals` (line 90); `none` models the panic path. -/
def getUSDCTransfers (keccak : List Nat → Nat)
    (filterLogs : FilterQuery → Except String (List Log))
    (startBlock endBlock decimals : Nat) : Option (Except String (List TransferRecord)) :=
  match filterLogs (buildQuery keccak startBlock endBlock) with
  | .error e => some (.error ("Failed to filter logs: " ++ e))
  | .ok logs =>
    match processLogs (10 ^ decimals) logs with
    | some records => some (.ok records)
    | none => none

/-- Lines printed to standard output and the fatal error, if any, of one
command run. -/
structure RunOutput where
  output : List String
  error : Option String
deriving DecidableEq

/-- main.go lines 129-136, `usdcCaller.Decimals`: the decoded call result, or
the zero value 0 alongside the error. The contract call (transport plus
decode) is the argument. -/
def usdcDecimals (call : Except String Nat) : Nat × Option String :=
  match call with
  | .error e => (0, some e)
  | .ok v => (v, none)

/-- The per-record output line of main.go line 103 (addresses rendered by
their numeric value; the checksummed `Address.Hex` casing is not modelled and
no claim depends on it). -/
def transferLine (r : TransferRecord) : String :=
  "Block #" ++ toString r.blockNumber ++ ": " ++ r.transferType ++ " from " ++
    toString r.fromAddr ++ " to " ++ toString r.toAddr ++ ", amount: " ++
    toString r.amount ++ " USDC"

/-- The summary line of main.go line 88. -/
def foundLine (count startBlock endBlock : Nat) : String :=
  "Found " ++ toString count ++ " USDC transfer records between blocks " ++
    toString startBlock ++ " and " ++ toString endBlock

/-- main.go lines 29-68, `main` after the connection is established: get the
decimals, print them, get the head block number, compute the range, query the
transfers. Each `log.Fatalf` becomes the `error` field; `none` models the
panic path inside `getUSDCTransfers`. -/
def tokenMain (keccak : List Nat → Nat) (decimalsCall : Except String Nat)
    (headerCall : Except String Nat)
    (filterLogs : FilterQuery → Except String (List Log)) : Option RunOutput :=
  match usdcDecimals decimalsCall with
  | (_, some e) => some ⟨[], some ("Failed to get USDC decimal places: " ++ e)⟩
  | (decimals, none) =>
    let l1 := "USDC decimal places: " ++ toString decimals
    match headerCall with
    | .error e => some ⟨[l1], some ("Failed to get the latest block number: " ++ e)⟩
    | .ok latest0 =>
      let latestBlock := u64 latest0
      let startBlock := computeStartBlock latestBlock
      match getUSDCTransfers keccak filterLogs startBlock latestBlock decimals with
      | none => none
      | some (.error e) => some ⟨[l1], some ("Failed to query USDC transfer records: " ++ e)⟩
      | some (.ok records) =>
        some ⟨[l1, foundLine records.length startBlock latestBlock] ++
          records.map transferLine, none⟩

/-- part_000 line 18. -/
def NFT_CONTRACT_ADDRESS : String := "0x0483b0dfc6c78062b9e999a82ffb795925381415"

/-- part_000 lines 21-27: the NFT struct — two bound call sites. Each returns
the Go pair (result, error); addresses are numbers below `2 ^ 160`, Go strings
are byte lists. -/
structure NFT where
  OwnerOf : Int → Nat × Option String
  TokenURI : Int → List Nat × Option String

/-- Modelled from the spec: the external interface codec (spec section 4.2,
`decodeResult`) for a single returned `address` — take the first 32-byte word
and keep its low-order 20 bytes. -/
def decodeAddressResult (bs : List Nat) : Nat :=
  setBytes (bs.take 32) % 2 ^ 160

/-- Modelled from the spec: the codec encoding a single returned `address` as
one left-padded 32-byte word, as a mock transport would produce it. -/
def encodeAddressResult (a : Nat) : List Nat :=
  toDigits 256 32 a

/-- Modelled from the spec: the codec encoding a single returned `string` —
offset word (32), length word, payload zero-padded to a 32-byte multiple. -/
def encodeStringResult (s : List Nat) : List Nat :=
  toDigits 256 32 32 ++ toDigits 256 32 s.length ++
    (s ++ List.replicate ((32 - s.length % 32) % 32) 0)

/-- Modelled from the spec: the codec decoding a single returned `string` —
read the offset word, then the length word at that offset, then that many
payload bytes. -/
def decodeStringResult (bs : List Nat) : List Nat :=
  let offset := setBytes (bs.take 32)
  let len := setBytes ((bs.drop offset).take 32)
  (bs.drop (offset + 32)).take len

/-- The `uint256` argument value of a `*big.Int` token id. -/
def intToUint256 (i : Int) : Nat :=
  (i % 2 ^ 256).toNat

/-- Modelled from the spec: the codec `encodeCall` — the 4-byte selector (the
high 4 bytes of the signature hash) followed by each argument as a 32-byte
word. -/
def encodeCall (keccak : List Nat → Nat) (signature : String) (args : List Nat) : List Nat :=
  toDigits 256 4 (keccak (strBytes signature) / 2 ^ 224) ++
    (args.map (toDigits 256 32)).flatten

/-- part_000 lines 48-66: the NFT value built in `main`. Each field encodes
the call, sends it through the transport (which receives the method name, as
`BoundContract.Call` does, and the encoded calldata), decodes the single
return value, and on error returns the zero value with the error. -/
def mkNFT (keccak : List Nat → Nat)
    (transport : String → List Nat → Except String (List Nat)) : NFT where
  OwnerOf := fun tokenId =>
    match transport "ownerOf" (encodeCall keccak "ownerOf(uint256)" [intToUint256 tokenId]) with
    | .error e => (0, some e)
    | .ok out => (decodeAddressResult out, none)
  TokenURI := fun tokenId =>
    match transport "tokenURI" (encodeCall keccak "tokenURI(uint256)" [intToUint256 tokenId]) with
    | .error e => ([], some e)
    | .ok out => (decodeStringResult out, none)

/-- Byte list rendered as a string (UTF-8 decoding abstracted bytewise; no
claim depends on it). -/
def bytesStr (bs : List Nat) : String :=
  String.mk (bs.map Char.ofNat)

/-- part_000 lines 76-78: the three lines printed before any call. -/
def nftHeader (tokenId : Int) : List String :=
  ["start getting NFT info...",
   "contract address: " ++ NFT_CONTRACT_ADDRESS,
   "Token ID: " ++ toString tokenId]

/-- part_000 lines 75-95: `getNFTInfo`. Owner first; a failure wraps the
error and returns before the URI call; then the URI; each success appends its
output line. -/
def getNFTInfo (nft : NFT) (tokenId : Int) : RunOutput :=
  match nft.OwnerOf tokenId with
  | (_, some e) => ⟨nftHeader tokenId, some ("get owner address failed: " ++ e)⟩
  | (ownerAddress, none) =>
    let ownerLine := "Token ID " ++ toString tokenId ++ " owner address: " ++
      toString ownerAddress
    match nft.TokenURI tokenId with
    | (_, some e) =>
      ⟨nftHeader tokenId ++ [ownerLine], some ("get metadata URI failed: " ++ e)⟩
    | (uri, none) =>
      ⟨nftHeader tokenId ++
        [ownerLine, "Token ID " ++ toString tokenId ++ " metadata URI: " ++ bytesStr uri],
       none⟩

/-- One registered command-line flag: name, default value, usage text. -/
structure FlagSpec where
  name : String
  defaultVal : Int
  usage : String
deriving DecidableEq

/-- part_000 line 30: the flags registered by the NFT command. -/
def nftFlags : List FlagSpec :=
  [⟨"tokenId", 1, "tokenId to query"⟩]

/-- Modelled from the spec: Go `flag` resolution (external library) — the
supplied value when the flag is present, else the registered default. -/
def lookupFlag (args : List (String × Int)) (f : FlagSpec) : Int :=
  match args.lookup f.name with
  | some v => v
  | none => f.defaultVal

/-- The token id `main` passes to `getNFTInfo` (part_000 lines 30-31, 70). -/
def nftTokenIdArg (args : List (String × Int)) : Int :=
  lookupFlag args ⟨"tokenId", 1, "tokenId to query"⟩

/-- part_000 lines 29-73: `main` after the connection — parse the flag, build
the NFT value, fetch the info; a returned error becomes the fatal message of
line 72. -/
def nftMain (keccak : List Nat → Nat)
    (transport : String → List Nat → Except String (List Nat))
    (args : List (String × Int)) : RunOutput :=
  let r := getNFTInfo (mkNFT keccak transport) (nftTokenIdArg args)
  match r.error with
  | some e => ⟨r.output, some ("get NFT info failed: " ++ e)⟩
  | none => r

theorem length_toDigits (b w : Nat) : ∀ n, (toDigits b w n).length = w := by
  induction w with
  | zero => intro n; rfl
  | succ w ih => intro n; simp [toDigits, ih]

theorem digitsVal_append (b : Nat) (ds : List Nat) (d : Nat) :
    digitsVal b (ds ++ [d]) = digitsVal b ds * b + d := by
  induction ds with
  | nil => simp [digitsVal]
  | cons e ds ih =>
    show digitsVal b (e :: (ds ++ [d])) = digitsVal b (e :: ds) * b + d
    rw [digitsVal, digitsVal, ih, List.length_append, List.length_singleton, pow_succ]
    ring

theorem digitsVal_toDigits (b w : Nat) : ∀ n, digitsVal b (toDigits b w n) = n % b ^ w := by
  induction w with
  | zero => intro n; simp [toDigits, digitsVal, Nat.mod_one]
  | succ w ih =>
    intro n
    rw [toDigits, digitsVal_append, ih]
    calc n / b % b ^ w * b + n % b = n % b + b * (n / b % b ^ w) := by ring
      _ = n % (b * b ^ w) := Nat.mod_mul.symm
      _ = n % b ^ (w + 1) := by rw [← pow_succ']

theorem mem_toDigits_lt (b w : Nat) (hb : 0 < b) : ∀ n, ∀ d ∈ toDigits b w n, d < b := by
  induction w with
  | zero => intro n d hd; simp [toDigits] at hd
  | succ w ih =>
    intro n d hd
    rw [toDigits] at hd
    rcases List.mem_append.mp hd with h | h
    · exact ih _ d h
    · rw [List.mem_singleton.mp h]; exact Nat.mod_lt _ hb

theorem hexCharVal_hexDigitChar (d : Nat) (hd : d < 16) :
    hexCharVal (hexDigitChar d) = some d := by
  interval_cases d <;> rfl

theorem hexCharsVal_map (ds : List Nat) (h : ∀ d ∈ ds, d < 16) :
    hexCharsVal (ds.map hexDigitChar) = some (digitsVal 16 ds) := by
  induction ds with
  | nil => rfl
  | cons d ds ih =>
    have hd : d < 16 := h d (List.mem_cons_self ..)
    have ihh := ih (fun e he => h e (List.mem_cons_of_mem _ he))
    simp [hexCharsVal, hexCharVal_hexDigitChar d hd, ihh, digitsVal, List.length_map]

theorem topicToAddress_eq (t : Nat) : topicToAddress t = t % 2 ^ 160 := by
  have h2 : strip0x ((hashHex t).data) = (toDigits 16 64 t).map hexDigitChar := rfl
  rw [topicToAddress, hexToAddress, h2,
    hexCharsVal_map _ (mem_toDigits_lt 16 64 (by norm_num) t), digitsVal_toDigits]
  have h16 : (16 : Nat) ^ 64 = 2 ^ 256 := by norm_num
  rw [h16]
  show t % 2 ^ 256 % 2 ^ 160 = t % 2 ^ 160
  exact Nat.mod_mod_of_dvd t (pow_dvd_pow 2 (by norm_num))

theorem setBytes_toDigits (w n : Nat) : setBytes (toDigits 256 w n) = n % 256 ^ w := by
  rw [setBytes, digitsVal_toDigits]

theorem processLog_inv (divisor : Nat) (l : Log) (r : TransferRecord)
    (h : processLog divisor l = some r) :
    ∃ t1 t2, l.topics.get? 1 = some t1 ∧ l.topics.get? 2 = some t2 ∧
      r = { blockNumber := l.blockNumber
            transferType := if topicToAddress t1 = 0 then "Mint" else "Transfer"
            fromAddr := topicToAddress t1
            toAddr := topicToAddress t2
            amount := setBytes l.data / divisor } := by
  have hz : hexToAddress "0x0000000000000000000000000000000000000000" = 0 := by decide
  cases e1 : l.topics.get? 1 with
  | none => rw [processLog, e1] at h; exact absurd h (by simp)
  | some t1 =>
    cases e2 : l.topics.get? 2 with
    | none => rw [processLog, e1, e2] at h; exact absurd h (by simp)
    | some t2 =>
      rw [processLog, e1, e2] at h
      refine ⟨t1, t2, rfl, rfl, ?_⟩
      rw [← Option.some.inj h, hz]

theorem processLog_isSome (divisor : Nat) (l : Log) (h3 : 3 ≤ l.topics.length) :
    ∃ r, processLog divisor l = some r := by
  have e1 : l.topics.get? 1 = some (l.topics.get ⟨1, by omega⟩) := List.get?_eq_get (by omega)
  have e2 : l.topics.get? 2 = some (l.topics.get ⟨2, by omega⟩) := List.get?_eq_get (by omega)
  exact ⟨_, by rw [processLog, e1, e2]⟩

theorem processLog_none (divisor : Nat) (l : Log) (h3 : l.topics.length < 3) :
    processLog divisor l = none := by
  have e2 : l.topics.get? 2 = none := List.get?_eq_none.mpr (by omega)
  cases e1 : l.topics.get? 1 <;> rw [processLog, e1, e2]

theorem processLogs_spec (divisor : Nat) :
    ∀ logs : List Log, (∀ l ∈ logs, 3 ≤ l.topics.length) →
    ∃ records, processLogs divisor logs = some records ∧
      records.length = logs.length ∧
      ∀ i (hl : i < logs.length) (hr : i < records.length),
        processLog divisor (logs.get ⟨i, hl⟩) = some (records.get ⟨i, hr⟩) := by
  intro logs
  induction logs with
  | nil =>
    intro _
    exact ⟨[], rfl, rfl, by intro i hl _; exact absurd hl (by simp)⟩
  | cons l ls ih =>
    intro h
    obtain ⟨r, hr⟩ := processLog_isSome divisor l (h l (List.mem_cons_self ..))
    obtain ⟨rs, hrs, hlen, hpt⟩ := ih (fun x hx => h x (List.mem_cons_of_mem _ hx))
    refine ⟨r :: rs, ?_, by simp [hlen], ?_⟩
    · rw [processLogs, hr, hrs]
    · intro i hl hrr
      cases i with
      | zero => simpa using hr
      | succ j => exact hpt j (by simpa using hl) (by simpa using hrr)

theorem take_32_append (A X : List Nat) (hA : A.length = 32) : (A ++ X).take 32 = A := by
  rw [← hA, List.take_left]

theorem drop_32_append (A X : List Nat) (hA : A.length = 32) : (A ++ X).drop 32 = X := by
  rw [← hA, List.drop_left]

theorem decodeAddressResult_encode (a : Nat) (ha : a < 2 ^ 160) :
    decodeAddressResult (encodeAddressResult a) = a := by
  rw [decodeAddressResult, encodeAddressResult,
    List.take_of_length_le (le_of_eq (length_toDigits 256 32 a)), setBytes_toDigits]
  have h256 : (256 : Nat) ^ 32 = 2 ^ 256 := by norm_num
  rw [h256, Nat.mod_eq_of_lt (lt_trans ha (by norm_num)), Nat.mod_eq_of_lt ha]

theorem decodeStringResult_encode (s : List Nat) (hs : s.length < 2 ^ 256) :
    decodeStringResult (encodeStringResult s) = s := by
  have h256 : (256 : Nat) ^ 32 = 2 ^ 256 := by norm_num
  have hoff : setBytes ((encodeStringResult s).take 32) = 32 := by
    rw [encodeStringResult, List.append_assoc,
      take_32_append _ _ (length_toDigits 256 32 32), setBytes_toDigits]
    exact Nat.mod_eq_of_lt (by norm_num)
  have h2 : (encodeStringResult s).drop 32 =
      toDigits 256 32 s.length ++ (s ++ List.replicate ((32 - s.length % 32) % 32) 0) := by
    rw [encodeStringResult, List.append_assoc]
    exact drop_32_append _ _ (length_toDigits 256 32 32)
  rw [decodeStringResult, hoff, h2,
    take_32_append _ _ (length_toDigits 256 32 s.length), setBytes_toDigits, h256,
    Nat.mod_eq_of_lt hs]
  have h3 : (encodeStringResult s).drop (32 + 32) =
      s ++ List.replicate ((32 - s.length % 32) % 32) 0 := by
    rw [encodeStringResult]
    have h64 : (toDigits 256 32 32 ++ toDigits 256 32 s.length).length = 32 + 32 := by
      rw [List.length_append, length_toDigits, length_toDigits]
    rw [← h64, List.drop_left]
  rw [h3, List.take_left]

theorem mkNFT_OwnerOf_err (keccak : List Nat → Nat)
    (transport : String → List Nat → Except String (List Nat)) (tokenId : Int) (e : String)
    (h : transport "ownerOf" (encodeCall keccak "ownerOf(uint256)" [intToUint256 tokenId]) =
      Except.error e) :
    (mkNFT keccak transport).OwnerOf tokenId = (0, some e) := by
  show (match transport "ownerOf" (encodeCall keccak "ownerOf(uint256)" [intToUint256 tokenId]) with
        | Except.error e => ((0 : Nat), some e)
        | Except.ok out => (decodeAddressResult out, none)) = ((0 : Nat), some e)
  rw [h]

theorem mkNFT_OwnerOf_ok (keccak : List Nat → Nat)
    (transport : String → List Nat → Except String (List Nat)) (tokenId : Int) (out : List Nat)
    (h : transport "ownerOf" (encodeCall keccak "ownerOf(uint256)" [intToUint256 tokenId]) =
      Except.ok out) :
    (mkNFT keccak transport).OwnerOf tokenId = (decodeAddressResult out, none) := by
  show (match transport "ownerOf" (encodeCall keccak "ownerOf(uint256)" [intToUint256 tokenId]) with
        | Except.error e => ((0 : Nat), some e)
        | Except.ok out => (decodeAddressResult out, none)) = (decodeAddressResult out, none)
  rw [h]

theorem mkNFT_TokenURI_ok (keccak : List Nat → Nat)
    (transport : String → List Nat → Except String (List Nat)) (tokenId : Int) (out : List Nat)
    (h : transport "tokenURI" (encodeCall keccak "tokenURI(uint256)" [intToUint256 tokenId]) =
      Except.ok out) :
    (mkNFT keccak transport).TokenURI tokenId = (decodeStringResult out, none) := by
  show (match transport "tokenURI" (encodeCall keccak "tokenURI(uint256)" [intToUint256 tokenId]) with
        | Except.error e => (([] : List Nat), some e)
        | Except.ok out => (decodeStringResult out, none)) = (decodeStringResult out, none)
  rw [h]

theorem mkNFT_TokenURI_err (keccak : List Nat → Nat)
    (transport : String → List Nat → Except String (List Nat)) (tokenId : Int) (e : String)
    (h : transport "tokenURI" (encodeCall keccak "tokenURI(uint256)" [intToUint256 tokenId]) =
      Except.error e) :
    (mkNFT keccak transport).TokenURI tokenId = ([], some e) := by
  show (match transport "tokenURI" (encodeCall keccak "tokenURI(uint256)" [intToUint256 tokenId]) with
        | Except.error e => (([] : List Nat), some e)
        | Except.ok out => (decodeStringResult out, none)) = (([] : List Nat), some e)
  rw [h]

/-- Claim C1 (the code contradicts the clamp half of the claim): for a head
`H` with `99 ≤ H < 2 ^ 64` the queried range does start at `H - 99`, but for
`H = 50 < 99` the uint64 subtraction in `main` wraps around to `2 ^ 64 - 49`
instead of clamping to genesis block 0 — the `startBlock < 0` guard is an
unsigned comparison and never fires. -/
theorem startBlock_underflow (h : Nat) (h64 : h < 2 ^ 64) (h99 : 99 ≤ h) :
    computeStartBlock h = h - 99 ∧
    computeStartBlock 50 = 2 ^ 64 - 49 ∧ computeStartBlock 50 ≠ 0 := by
  refine ⟨?_, by decide, by decide⟩
  have p : (2 : Nat) ^ 64 = 18446744073709551616 := by norm_num
  rw [p] at h64
  simp only [computeStartBlock, u64, p]
  rw [if_neg (Nat.not_lt_zero _)]
  have e : h + (18446744073709551616 - 99) = (h - 99) + 18446744073709551616 := by omega
  rw [e, Nat.add_mod_right, Nat.mod_eq_of_lt (by omega)]

/-- Witness for `startBlock_underflow` at head 1000. -/
theorem startBlock_underflow_witness :
    (1000 : Nat) < 2 ^ 64 ∧ 99 ≤ 1000 ∧
    (computeStartBlock 1000 = 1000 - 99 ∧
      computeStartBlock 50 = 2 ^ 64 - 49 ∧ computeStartBlock 50 ≠ 0) :=
  ⟨by decide, by decide, startBlock_underflow 1000 (by decide) (by decide)⟩

/-- Claim C2: for every decimals value `d` and every list of raw log entries
the transport returns (each carrying the three topics the Transfer filter
guarantees), `getUSDCTransfers` yields exactly one record per log entry and
in transport order: the i-th record is decoded from the i-th log, with amount
`rawAmount / 10 ^ d` in integer (floor) division. -/
theorem transfers_one_record_per_log (keccak : List Nat → Nat) (sb eb d : Nat)
    (logs : List Log) (h : ∀ l ∈ logs, 3 ≤ l.topics.length) :
    ∃ records, getUSDCTransfers keccak (fun _ => Except.ok logs) sb eb d =
        some (Except.ok records) ∧
      records.length = logs.length ∧
      ∀ i (hl : i < logs.length) (hr : i < records.length),
        processLog (10 ^ d) (logs.get ⟨i, hl⟩) = some (records.get ⟨i, hr⟩) ∧
        (records.get ⟨i, hr⟩).amount = setBytes (logs.get ⟨i, hl⟩).data / 10 ^ d := by
  obtain ⟨records, hrec, hlen, hpt⟩ := processLogs_spec (10 ^ d) logs h
  refine ⟨records, ?_, hlen, ?_⟩
  · show (match processLogs (10 ^ d) logs with
          | some records => some (Except.ok records)
          | none => none) = some (Except.ok records)
    rw [hrec]
  · intro i hl hr
    refine ⟨hpt i hl hr, ?_⟩
    obtain ⟨t1, t2, e1, e2, hre⟩ := processLog_inv _ _ _ (hpt i hl hr)
    rw [hre]

/-- The single log entry of the C2 example: raw amount bytes for 1,000,000. -/
def exampleLog : Log :=
  ⟨1, [0, 0, 0], [15, 66, 64]⟩

/-- Witness for `transfers_one_record_per_log` with decimals 6 and the
1,000,000-raw-amount log: the decoded amount prints as "1". -/
theorem transfers_one_record_per_log_witness :
    (∀ l ∈ [exampleLog], 3 ≤ l.topics.length) ∧
    (∃ records, getUSDCTransfers (fun _ => 0) (fun _ => Except.ok [exampleLog]) 0 0 6 =
        some (Except.ok records) ∧
      records.length = [exampleLog].length ∧
      ∀ i (hl : i < [exampleLog].length) (hr : i < records.length),
        processLog (10 ^ 6) ([exampleLog].get ⟨i, hl⟩) = some (records.get ⟨i, hr⟩) ∧
        (records.get ⟨i, hr⟩).amount = setBytes ([exampleLog].get ⟨i, hl⟩).data / 10 ^ 6) ∧
    setBytes exampleLog.data = 1000000 ∧
    toString (setBytes exampleLog.data / 10 ^ 6) = "1" :=
  ⟨by decide, transfers_one_record_per_log (fun _ => 0) 0 0 6 [exampleLog] (by decide),
   by decide, by decide⟩

/-- Claim C3: every failing contract call aborts the run with no result line
for that call and an error naming the operation. A failed `ownerOf` yields
only the header lines and the wrapped "get owner address failed" error — the
result being independent of the transport's `tokenURI` behaviour, that query
is never issued; a failed `tokenURI` (after a successful `ownerOf`) yields
the header and owner lines but no URI line, with the wrapped "get metadata
URI failed" error; a failed `decimals` call aborts the token command before
any output; a failed head-block lookup aborts it right after the decimals
line; a failed log filter is reported as "Failed to filter logs". -/
theorem error_aborts_run :
    (∀ (keccak : List Nat → Nat) (transport : String → List Nat → Except String (List Nat))
        (tokenId : Int) (e : String),
      transport "ownerOf" (encodeCall keccak "ownerOf(uint256)" [intToUint256 tokenId]) =
        Except.error e →
      getNFTInfo (mkNFT keccak transport) tokenId =
        ⟨nftHeader tokenId, some ("get owner address failed: " ++ e)⟩) ∧
    (∀ (keccak : List Nat → Nat) (transport : String → List Nat → Except String (List Nat))
        (tokenId : Int) (out : List Nat) (e : String),
      transport "ownerOf" (encodeCall keccak "ownerOf(uint256)" [intToUint256 tokenId]) =
        Except.ok out →
      transport "tokenURI" (encodeCall keccak "tokenURI(uint256)" [intToUint256 tokenId]) =
        Except.error e →
      getNFTInfo (mkNFT keccak transport) tokenId =
        ⟨nftHeader tokenId ++ ["Token ID " ++ toString tokenId ++ " owner address: " ++
            toString (decodeAddressResult out)],
          some ("get metadata URI failed: " ++ e)⟩) ∧
    (∀ (keccak : List Nat → Nat) (headerCall : Except String Nat)
        (filterLogs : FilterQuery → Except String (List Log)) (e : String),
      tokenMain keccak (Except.error e) headerCall filterLogs =
        some ⟨[], some ("Failed to get USDC decimal places: " ++ e)⟩) ∧
    (∀ (keccak : List Nat → Nat) (d : Nat)
        (filterLogs : FilterQuery → Except String (List Log)) (e : String),
      tokenMain keccak (Except.ok d) (Except.error e) filterLogs =
        some ⟨["USDC decimal places: " ++ toString d],
          some ("Failed to get the latest block number: " ++ e)⟩) ∧
    (∀ (keccak : List Nat → Nat) (sb eb d : Nat) (e : String),
      getUSDCTransfers keccak (fun _ => Except.error e) sb eb d =
        some (Except.error ("Failed to filter logs: " ++ e))) := by
  refine ⟨?_, ?_, fun _ _ _ _ => rfl, fun _ _ _ _ => rfl, fun _ _ _ _ _ => rfl⟩
  · intro keccak transport tokenId e he
    rw [getNFTInfo, mkNFT_OwnerOf_err keccak transport tokenId e he]
  · intro keccak transport tokenId out e hok herr
    rw [getNFTInfo, mkNFT_OwnerOf_ok keccak transport tokenId out hok,
      mkNFT_TokenURI_err keccak transport tokenId e herr]

/-- Witness for `error_aborts_run`: an always-failing transport, and one
whose `ownerOf` succeeds with the encoded address 5 while `tokenURI`
fails. -/
theorem error_aborts_run_witness :
    (((fun (_ : String) (_ : List Nat) => (Except.error "boom" : Except String (List Nat)))
        "ownerOf" (encodeCall (fun _ => 0) "ownerOf(uint256)" [intToUint256 1]) =
      Except.error "boom") ∧
    getNFTInfo (mkNFT (fun _ => 0) (fun _ _ => Except.error "boom")) 1 =
      ⟨nftHeader 1, some ("get owner address failed: " ++ "boom")⟩) ∧
    (((fun (name : String) (_ : List Nat) =>
          if name = "ownerOf" then Except.ok (encodeAddressResult 5)
          else (Except.error "boom" : Except String (List Nat)))
        "ownerOf" (encodeCall (fun _ => 0) "ownerOf(uint256)" [intToUint256 1]) =
      Except.ok (encodeAddressResult 5)) ∧
    ((fun (name : String) (_ : List Nat) =>
          if name = "ownerOf" then Except.ok (encodeAddressResult 5)
          else (Except.error "boom" : Except String (List Nat)))
        "tokenURI" (encodeCall (fun _ => 0) "tokenURI(uint256)" [intToUint256 1]) =
      Except.error "boom") ∧
    getNFTInfo (mkNFT (fun _ => 0) (fun name _ =>
        if name = "ownerOf" then Except.ok (encodeAddressResult 5)
        else Except.error "boom")) 1 =
      ⟨nftHeader 1 ++ ["Token ID " ++ toString (1 : Int) ++ " owner address: " ++
          toString (decodeAddressResult (encodeAddressResult 5))],
        some ("get metadata URI failed: " ++ "boom")⟩) :=
  ⟨⟨rfl, error_aborts_run.1 (fun _ => 0) (fun _ _ => Except.error "boom") 1 "boom" rfl⟩,
   rfl, rfl,
   error_aborts_run.2.1 (fun _ => 0)
     (fun name _ =>
       if name = "ownerOf" then Except.ok (encodeAddressResult 5) else Except.error "boom")
     1 (encodeAddressResult 5) "boom" rfl rfl⟩

/-- Claim C4: for every chosen block range the filter query that
`getUSDCTransfers` builds has exactly one topic position holding exactly the
hash of "Transfer(address,address,uint256)" and an address list holding
exactly the USDC contract address; moreover `getUSDCTransfers` consults the
transport only through that query. -/
theorem filter_query_exact (keccak : List Nat → Nat) (sb eb d : Nat) :
    (buildQuery keccak sb eb).topics = [[keccak (strBytes TRANSFER_EVENT_SIGNATURE)]] ∧
    (buildQuery keccak sb eb).addresses = [hexToAddress USDC_CONTRACT_ADDRESS] ∧
    hexToAddress USDC_CONTRACT_ADDRESS = 0xA0b86991c6218b36c1d19D4a2e9Eb0cE3606eB48 ∧
    ∀ f g : FilterQuery → Except String (List Log),
      f (buildQuery keccak sb eb) = g (buildQuery keccak sb eb) →
      getUSDCTransfers keccak f sb eb d = getUSDCTransfers keccak g sb eb d := by
  refine ⟨rfl, rfl, by decide, ?_⟩
  intro f g hfg
  rw [getUSDCTransfers, getUSDCTransfers, hfg]

/-- Witness for `filter_query_exact`: two transports agreeing on the built
query produce the same run. -/
theorem filter_query_exact_witness :
    ((fun (_ : FilterQuery) => (Except.ok [] : Except String (List Log)))
        (buildQuery (fun _ => 0) 0 0) =
      (fun q => if q.topics.length = 1 then (Except.ok [] : Except String (List Log))
        else Except.error "x") (buildQuery (fun _ => 0) 0 0)) ∧
    getUSDCTransfers (fun _ => 0) (fun _ => Except.ok []) 0 0 0 =
      getUSDCTransfers (fun _ => 0)
        (fun q => if q.topics.length = 1 then Except.ok [] else Except.error "x") 0 0 0 :=
  ⟨rfl, (filter_query_exact (fun _ => 0) 0 0 0).2.2.2 _ _ rfl⟩

/-- Claim C5: every decoded record is classified "Mint" exactly when the
decoded sender address is the all-zero address, and "Transfer" otherwise. -/
theorem mint_iff_zero_sender (divisor : Nat) (l : Log) (r : TransferRecord)
    (h : processLog divisor l = some r) :
    (r.transferType = "Mint" ↔ r.fromAddr = 0) ∧
    (r.transferType = "Transfer" ↔ r.fromAddr ≠ 0) := by
  obtain ⟨t1, t2, e1, e2, hre⟩ := processLog_inv divisor l r h
  have hT : r.transferType = if topicToAddress t1 = 0 then "Mint" else "Transfer" := by
    rw [hre]
  have hF : r.fromAddr = topicToAddress t1 := by
    rw [hre]
  rw [hT, hF]
  generalize topicToAddress t1 = x
  by_cases hz : x = 0
  · rw [if_pos hz]
    exact ⟨iff_of_true rfl hz, iff_of_false (by decide) (fun hn => hn hz)⟩
  · rw [if_neg hz]
    exact ⟨iff_of_false (by decide) hz, iff_of_true rfl hz⟩

/-- Witness for `mint_iff_zero_sender` at a record with nonzero sender. -/
theorem mint_iff_zero_sender_witness :
    processLog 1 ⟨3, [0, 5, 6], [7]⟩ = some ⟨3, "Transfer", 5, 6, 7⟩ ∧
    (((TransferRecord.mk 3 "Transfer" 5 6 7).transferType = "Mint" ↔
        (TransferRecord.mk 3 "Transfer" 5 6 7).fromAddr = 0) ∧
      ((TransferRecord.mk 3 "Transfer" 5 6 7).transferType = "Transfer" ↔
        (TransferRecord.mk 3 "Transfer" 5 6 7).fromAddr ≠ 0)) :=
  ⟨by decide, mint_iff_zero_sender 1 ⟨3, [0, 5, 6], [7]⟩ ⟨3, "Transfer", 5, 6, 7⟩ (by decide)⟩

/-- Claim C6: round-trip of the NFT calls — for every token id, encoding an
`ownerOf` (resp. `tokenURI`) call and decoding a mock response yields exactly
the address (resp. string) the mock encoded. -/
theorem nft_call_roundtrip (keccak : List Nat → Nat) (tokenId : Int)
    (a : Nat) (ha : a < 2 ^ 160) (s : List Nat) (hs : s.length < 2 ^ 256) :
    (mkNFT keccak (fun name _ =>
        if name = "ownerOf" then Except.ok (encodeAddressResult a)
        else Except.ok (encodeStringResult s))).OwnerOf tokenId = (a, none) ∧
    (mkNFT keccak (fun name _ =>
        if name = "ownerOf" then Except.ok (encodeAddressResult a)
        else Except.ok (encodeStringResult s))).TokenURI tokenId = (s, none) := by
  constructor
  · rw [mkNFT_OwnerOf_ok _ _ _ _ (by rw [if_pos rfl]), decodeAddressResult_encode a ha]
  · rw [mkNFT_TokenURI_ok _ _ _ _ (by rw [if_neg (by decide)]),
      decodeStringResult_encode s hs]

/-- Witness for `nft_call_roundtrip`: address 5 and the two-byte string
"hi". -/
theorem nft_call_roundtrip_witness :
    (5 : Nat) < 2 ^ 160 ∧ ([104, 105] : List Nat).length < 2 ^ 256 ∧
    ((mkNFT (fun _ => 0) (fun name _ =>
        if name = "ownerOf" then Except.ok (encodeAddressResult 5)
        else Except.ok (encodeStringResult [104, 105]))).OwnerOf 7 = (5, none) ∧
      (mkNFT (fun _ => 0) (fun name _ =>
        if name = "ownerOf" then Except.ok (encodeAddressResult 5)
        else Except.ok (encodeStringResult [104, 105]))).TokenURI 7 = ([104, 105], none)) :=
  ⟨by decide, by decide,
   nft_call_roundtrip (fun _ => 0) 7 5 (by decide) [104, 105] (by decide)⟩

/-- Claim C7: the NFT command registers exactly one flag, `tokenId`, an
integer defaulting to 1; when the flag is absent the queried token id is 1. -/
theorem nft_cli_single_flag (args : List (String × Int))
    (h : args.lookup "tokenId" = none) :
    nftFlags.length = 1 ∧
    nftFlags = [⟨"tokenId", 1, "tokenId to query"⟩] ∧
    nftTokenIdArg args = 1 := by
  refine ⟨rfl, rfl, ?_⟩
  simp only [nftTokenIdArg, lookupFlag, h]

/-- Witness for `nft_cli_single_flag` with an empty command line. -/
theorem nft_cli_single_flag_witness :
    (([] : List (String × Int)).lookup "tokenId" = none) ∧
    (nftFlags.length = 1 ∧
      nftFlags = [⟨"tokenId", 1, "tokenId to query"⟩] ∧
      nftTokenIdArg [] = 1) :=
  ⟨rfl, nft_cli_single_flag [] rfl⟩

/-- Claim C8: the unchecked `Topics[1]`/`Topics[2]` indexing is in bounds
exactly under the three-topics precondition: with at least 3 topics the log
decodes to a record, with fewer the access is out of bounds (a panic,
modelled as `none`). -/
theorem topics_indexing_bounds (divisor : Nat) (l : Log) :
    (3 ≤ l.topics.length → ∃ r, processLog divisor l = some r) ∧
    (l.topics.length < 3 → processLog divisor l = none) :=
  ⟨processLog_isSome divisor l, processLog_none divisor l⟩

/-- Witness for `topics_indexing_bounds`: a three-topic and a two-topic
log. -/
theorem topics_indexing_bounds_witness :
    (3 ≤ (Log.mk 0 [1, 2, 3] []).topics.length ∧
      ∃ r, processLog 1 (Log.mk 0 [1, 2, 3] []) = some r) ∧
    ((Log.mk 0 [1, 2] []).topics.length < 3 ∧
      processLog 1 (Log.mk 0 [1, 2] []) = none) :=
  ⟨⟨by decide, (topics_indexing_bounds 1 (Log.mk 0 [1, 2, 3] [])).1 (by decide)⟩,
   ⟨by decide, (topics_indexing_bounds 1 (Log.mk 0 [1, 2] [])).2 (by decide)⟩⟩

/-- Claim C9: the sender (and recipient) of a record is the low-order
20 bytes of the corresponding 32-byte topic; the high-order 12 bytes are
discarded, so topics agreeing on their low 20 bytes decode to the same
address. -/
theorem sender_low20_bytes :
    (∀ t, topicToAddress t = t % 2 ^ 160) ∧
    (∀ t1 t2, t1 % 2 ^ 160 = t2 % 2 ^ 160 → topicToAddress t1 = topicToAddress t2) ∧
    (∀ divisor l r, processLog divisor l = some r →
      ∃ t1, l.topics.get? 1 = some t1 ∧ r.fromAddr = t1 % 2 ^ 160) := by
  refine ⟨topicToAddress_eq, ?_, ?_⟩
  · intro t1 t2 h
    rw [topicToAddress_eq, topicToAddress_eq, h]
  · intro divisor l r h
    obtain ⟨t1, t2, e1, e2, hre⟩ := processLog_inv divisor l r h
    refine ⟨t1, e1, ?_⟩
    have hF : r.fromAddr = topicToAddress t1 := by rw [hre]
    rw [hF, topicToAddress_eq]
/-- Witness for `sender_low20_bytes`: two topics differing only in the high
12 bytes, and a concrete decoded record. -/
theorem sender_low20_bytes_witness :
    ((2 ^ 160 + 7) % 2 ^ 160 = 7 % 2 ^ 160 ∧
      topicToAddress (2 ^ 160 + 7) = topicToAddress 7) ∧
    (2 ^ 160 + 7 ≠ 7) ∧
    (processLog 1 (Log.mk 0 [0, 9, 9] []) = some ⟨0, "Transfer", 9, 9, 0⟩ ∧
      ∃ t1, (Log.mk 0 [0, 9, 9] []).topics.get? 1 = some t1 ∧
        (TransferRecord.mk 0 "Transfer" 9 9 0).fromAddr = t1 % 2 ^ 160) :=
  ⟨⟨by decide, sender_low20_bytes.2.1 _ _ (by decide)⟩, by decide,
   ⟨by decide, sender_low20_bytes.2.2 1 (Log.mk 0 [0, 9, 9] [])
      (TransferRecord.mk 0 "Transfer" 9 9 0) (by decide)⟩⟩

/-- Claim C10: on a failed call every typed accessor returns its result
type's zero value together with the error: `Decimals` returns 0, `OwnerOf`
the all-zero address, `TokenURI` the empty string. -/
theorem zero_value_on_error (e : String) (keccak : List Nat → Nat) (tokenId : Int) :
    usdcDecimals (Except.error e) = (0, some e) ∧
    (mkNFT keccak (fun _ _ => Except.error e)).OwnerOf tokenId = (0, some e) ∧
    (mkNFT keccak (fun _ _ => Except.error e)).TokenURI tokenId = ([], some e) :=
  ⟨rfl, rfl, rfl⟩
